import Mathlib

/-!
Verification of the ClaraCore release pipeline against its
natural-language specification.

The repository contains two release pipelines: `release.py` (PyGithub
based) and `scripts/release.py` (plain urllib based). Both are embedded
here. Strings the Python code manipulates character-by-character are
modelled as `List Char`; fields only built and compared whole stay as
`String`. External effects (the Go compiler, the filesystem, the GitHub
HTTP API, `hashlib`) are modelled by passing their observable outcomes in
explicitly, so every definition below mirrors the control flow of the
source line by line over those outcomes.
-/

set_option autoImplicit false

namespace ClaraCore

/-! ### Tag validation (`release.py`, `validate_version`, lines 611-625) -/

/-- Python `str.split(sep)` for a one-character separator, on `List Char`:
`"".split('.') == ['']`, `"a.b".split('.') == ["a","b"]`. -/
def splitOnC (sep : Char) : List Char → List (List Char)
  | [] => [[]]
  | c :: cs =>
    if c = sep then [] :: splitOnC sep cs
    else
      match splitOnC sep cs with
      | [] => [[c]]
      | g :: gs => (c :: g) :: gs

/-- Embedding of `validate_version`: the string must start with `'v'`
(`version.startswith('v')`), and stripping that one-character prefix and
splitting the remainder on `'.'` must yield at least 2 parts
(`len(parts) < 2` is rejected). Nothing else about the parts is checked. -/
def validate_version (version : List Char) : Bool :=
  match version with
  | [] => false
  | c :: rest => if c = 'v' then decide (2 ≤ (splitOnC '.' rest).length) else false

/-- A "numeric-or-identifier component" in the sense of claim C7's wording:
a nonempty run of alphanumeric characters. Spec-side notion, used only to
state the acceptance set the claim describes. -/
def isIdentComponent (l : List Char) : Bool :=
  !l.isEmpty && l.all (fun c => c.isAlphanum)

/-- The acceptance set claimed by C7, formalised from the claim's words:
a `'v'` prefix followed by at least two dot-separated numeric-or-identifier
components. -/
def claimedAcceptC7 (s : List Char) : Bool :=
  match s with
  | [] => false
  | c :: rest =>
    c = 'v' && decide (2 ≤ (splitOnC '.' rest).length)
      && (splitOnC '.' rest).all isIdentComponent

/-! ### Prerelease flag

`release.py` line 553 computes the flag inline from the tag:
`prerelease=version.find("alpha") != -1 or version.find("beta") != -1 or
version.find("rc") != -1`; the script has no `--prerelease` option.
`scripts/release.py` lines 196-203 put `args.prerelease` into the create
payload verbatim and never inspect the tag. -/

/-- Does `needle` occur at the start of `hay`? (helper for `str.find`). -/
def startsWithSeq : List Char → List Char → Bool
  | [], _ => true
  | _ :: _, [] => false
  | a :: as, b :: bs => a = b && startsWithSeq as bs

/-- `hay.find(needle) != -1` of Python: `needle` occurs as a contiguous
substring of `hay`. -/
def hasSubstr (needle : List Char) : List Char → Bool
  | [] => startsWithSeq needle []
  | b :: bs => startsWithSeq needle (b :: bs) || hasSubstr needle bs

/-- The arguments `release.py`'s `create_github_release` passes to
`repo.create_git_release` (lines 548-554). -/
structure MainReleaseArgs where
  tag : List Char
  name : List Char
  draft : Bool
  prerelease : Bool
  deriving DecidableEq, Repr

/-- Embedding of the `repo.create_git_release(...)` call site in
`release.py` lines 548-554: `tag=version`, `name=f"ClaraCore {version}"`,
and the inline prerelease expression quoted above. -/
def main_create_release_args (version : List Char) (draft : Bool) : MainReleaseArgs :=
  { tag := version
  , name := "ClaraCore ".data ++ version
  , draft := draft
  , prerelease :=
      hasSubstr "alpha".data version || hasSubstr "beta".data version
        || hasSubstr "rc".data version }

/-- The JSON payload `scripts/release.py`'s `create_or_get_release` builds
for `POST /releases` (lines 196-203). -/
structure ScriptsReleasePayload where
  tag_name : List Char
  name : List Char
  body : List Char
  draft : Bool
  prerelease : Bool
  target_commitish : List Char
  deriving DecidableEq, Repr

/-- Embedding of the payload construction in `scripts/release.py` lines
194-203: `"name": name or tag`, `"body": notes or ""`,
`"prerelease": prerelease` (the CLI flag, unmodified), and
`target_commitish = (git rev-parse HEAD or "").strip() or "main"` —
`gitHead` is the already-stripped stdout of that git call. -/
def scripts_release_payload (tag name notes : List Char) (draft prerelease : Bool)
    (gitHead : List Char) : ScriptsReleasePayload :=
  { tag_name := tag
  , name := if name.isEmpty then tag else name
  , body := notes
  , draft := draft
  , prerelease := prerelease
  , target_commitish := if gitHead.isEmpty then "main".data else gitHead }

/-! ### create-or-get (`scripts/release.py`, `create_or_get_release`,
lines 188-204)

The lookup `GET /releases/tags/{tag}` is performed by `urlopen`, which on
failure raises `HTTPError` (any non-2xx HTTP status: 404 not-found, 401/403
auth, 5xx server errors) or a plain `URLError` (network unreachable, DNS).
The source wraps only the lookup in `try: ... except HTTPError: pass`, so
every `HTTPError` — whatever its status code — falls through to the create
`POST`, while a non-HTTP `URLError` propagates and kills the run before any
creation. -/

/-- Observable outcome of the release lookup by tag. -/
inductive LookupOutcome where
  | found (releaseId : Nat)
  | httpError (code : Nat)
  | networkError
  deriving DecidableEq, Repr

/-- What `create_or_get_release` does next, given the lookup outcome. -/
inductive CreateOrGetAction where
  | reuse (releaseId : Nat)
  | createNew (payload : ScriptsReleasePayload)
  | fatalError
  deriving DecidableEq, Repr

/-- Embedding of `create_or_get_release`: a successful lookup returns the
existing release; `except HTTPError: pass` swallows every HTTP error and
proceeds to create with the payload of `scripts_release_payload`; any other
exception (plain `URLError`) propagates — fatal, no creation attempted. -/
def create_or_get_release (lk : LookupOutcome) (tag name notes : List Char)
    (draft prerelease : Bool) (gitHead : List Char) : CreateOrGetAction :=
  match lk with
  | .found r => .reuse r
  | .httpError _ =>
      .createNew (scripts_release_payload tag name notes draft prerelease gitHead)
  | .networkError => .fatalError

/-! ### Target matrix build (`release.py`, `build_binaries`, lines 272-367,
and `main`, lines 720-739) -/

/-- One entry of `BUILD_TARGETS` (release.py lines 70-101). -/
structure BuildTarget where
  goos : String
  goarch : String
  filename : String
  description : String
  deriving DecidableEq, Repr

def target_linux_amd64 : BuildTarget :=
  ⟨"linux", "amd64", "claracore-linux-amd64", "Linux x64"⟩

def target_linux_arm64 : BuildTarget :=
  ⟨"linux", "arm64", "claracore-linux-arm64", "Linux ARM64"⟩

def target_darwin_amd64 : BuildTarget :=
  ⟨"darwin", "amd64", "claracore-darwin-amd64", "macOS Intel"⟩

def target_darwin_arm64 : BuildTarget :=
  ⟨"darwin", "arm64", "claracore-darwin-arm64", "macOS Apple Silicon"⟩

def target_windows_amd64 : BuildTarget :=
  ⟨"windows", "amd64", "claracore-windows-amd64.exe", "Windows x64"⟩

/-- The fixed build matrix `BUILD_TARGETS`. -/
def BUILD_TARGETS : List BuildTarget :=
  [target_linux_amd64, target_linux_arm64, target_darwin_amd64,
   target_darwin_arm64, target_windows_amd64]

/-- Observable outcome of one `go build` invocation for one target:
either the command succeeded and the output file exists (with the size and
digest then computed from it), or `run_command` returned failure, or the
command "succeeded" but `output_path.exists()` is false. -/
inductive BuildOutcome where
  | built (sha256 : String) (size : String)
  | compileFailed
  | outputMissing
  deriving DecidableEq, Repr

/-- The `binary_info` dict appended to `built_binaries`
(release.py lines 350-355). -/
structure BinaryInfo where
  target : BuildTarget
  path : String
  size : String
  sha256 : String
  deriving DecidableEq, Repr

/-- Embedding of the `for target in BUILD_TARGETS` loop of
`build_binaries`: both failure arms execute `continue` — the target is
skipped, nothing is appended, and the loop proceeds to the next target. -/
def build_binaries : List (BuildTarget × BuildOutcome) → List BinaryInfo
  | [] => []
  | (t, o) :: rest =>
    match o with
    | .built sha size =>
        { target := t, path := "dist/" ++ t.filename, size := size, sha256 := sha }
          :: build_binaries rest
    | .compileFailed => build_binaries rest
    | .outputMissing => build_binaries rest

/-- Embedding of `main` (release.py lines 720-739) after the build step:
returns (whether `create_github_release` was invoked, the process exit
status). Empty artifact list → exit 1 before any publishing; `--build-only`
→ exit 0; otherwise exit 0 on publish success and 1 on publish failure. -/
def main_flow (binaries : List BinaryInfo) (buildOnly : Bool) (publishOk : Bool) :
    Bool × Nat :=
  if binaries.isEmpty then (false, 1)
  else if buildOnly then (false, 0)
  else (true, if publishOk then 0 else 1)

/-! ### The scripts pipeline's build loop (`scripts/release.py`,
`build_target` lines 110-122 and the loop in `main` lines 233-242) -/

/-- Observable outcome of one `go build` in the scripts pipeline. -/
inductive ScriptsBuildOutcome where
  | builtAt (path : String)
  | commandFailed (returncode : Nat)
  | binaryMissing (path : String)
  deriving DecidableEq, Repr

/-- Embedding of `build_target`: `run` raises
`SystemExit(f"Command failed ...")` on a non-zero return code, and
`build_target` raises `SystemExit(f"Expected binary not found: ...")` when
the output file is absent; otherwise the binary path is returned. -/
def scripts_build_target (o : ScriptsBuildOutcome) : Except String String :=
  match o with
  | .builtAt p => .ok p
  | .commandFailed rc => .error ("Command failed (" ++ toString rc ++ "): go build")
  | .binaryMissing p => .error ("Expected binary not found: " ++ p)

/-- Embedding of the `for goos, goarch in targets` loop in the scripts
`main`: each iteration calls `build_target`, whose `SystemExit` propagates
and terminates the whole run — there is no `continue` here. -/
def scripts_build_all :
    List ((String × String) × ScriptsBuildOutcome) →
      Except String (List ((String × String) × String))
  | [] => .ok []
  | (t, o) :: rest =>
    match scripts_build_target o with
    | .error e => .error e
    | .ok p => (scripts_build_all rest).map (fun bs => (t, p) :: bs)

/-! ### Asset upload (`scripts/release.py`, `gh_upload_asset` lines
167-185, upload loop lines 261-263) -/

/-- Observable HTTP outcome of one asset-upload `POST`. A duplicate asset
name is the `httpError` case with code 422 (GitHub's "already_exists"
validation failure); bad credentials are 401/403; `netError` is a plain
`URLError` (no HTTP response at all). -/
inductive HttpResp where
  | success
  | httpError (code : Nat) (body : String)
  | netError
  deriving DecidableEq, Repr

/-- How one failed upload terminates the run: `gh_upload_asset` converts
`HTTPError` into `SystemExit` with an explicit message; a plain `URLError`
is not caught and propagates as an uncaught exception. -/
inductive UploadError where
  | systemExit (msg : String)
  | uncaughtNetwork
  deriving DecidableEq, Repr

/-- Embedding of `gh_upload_asset`: success logs and returns; `HTTPError`
(conflict, auth, server error) becomes
`SystemExit(f"Asset upload failed ({e.code}): {body}")` — the existing
asset is never touched; any non-HTTP network failure propagates uncaught. -/
def gh_upload_asset : HttpResp → Except UploadError Unit
  | .success => .ok ()
  | .httpError code body =>
      .error (.systemExit ("Asset upload failed (" ++ toString code ++ "): " ++ body))
  | .netError => .error .uncaughtNetwork

/-- Embedding of the `for z in zips: gh_upload_asset(...)` loop: uploads
run strictly in order; the first failure terminates the loop at once
(nothing later is attempted), and nothing removes assets already uploaded
or local files — the result is the list of asset names uploaded so far plus
the terminating error, if any. -/
def upload_assets_loop :
    List (String × HttpResp) → List String → List String × Option UploadError
  | [], uploaded => (uploaded, none)
  | (name, resp) :: rest, uploaded =>
    match gh_upload_asset resp with
    | .ok _ => upload_assets_loop rest (uploaded ++ [name])
    | .error e => (uploaded, some e)

/-! ### Checksum manifest (`release.py`, `create_github_release` lines
576-592) -/

/-- Embedding of the manifest construction: the accumulator starts as the
f-string `f"# SHA256 Checksums for ClaraCore {version}\n\n"` and the loop
appends `f"{binary['sha256']}  {binary['target']['filename']}\n"` per
binary (two spaces between digest and filename). -/
def checksums_content (version : List Char) (binaries : List (List Char × List Char)) :
    List Char :=
  binaries.foldl
    (fun acc b => acc ++ b.1 ++ [' ', ' '] ++ b.2 ++ ['\n'])
    ("# SHA256 Checksums for ClaraCore ".data ++ version ++ ['\n', '\n'])

/-- The manifest content claim C5 describes: one line per artifact of the
form digest, two spaces, filename — and nothing else. Spec-side notion. -/
def claimedChecksumsC5 (binaries : List (List Char × List Char)) : List Char :=
  (binaries.map (fun b => b.1 ++ [' ', ' '] ++ b.2 ++ ['\n'])).flatten

/-- The order in which `create_github_release` uploads assets: every built
binary (lines 561-574, by target filename), then `checksums.txt`
(lines 585-590). -/
def upload_sequence (binaries : List BinaryInfo) : List String :=
  binaries.map (fun b => b.target.filename) ++ ["checksums.txt"]

/-! ### Packaging (`scripts/release.py`, `stage_and_zip`, lines 125-145)

The filesystem slice `stage_and_zip` touches for one target is the staging
directory `dist/<name>` and the archive `dist/<name>.zip`; both are
modelled as optional (present-or-absent) file collections, a file being a
(name, content) pair. -/

/-- The slice of the `dist` directory belonging to one archive name. -/
structure PkgFS where
  stage : Option (List (String × String))
  zipAt : Option (List (String × String))
  deriving DecidableEq, Repr

/-- `shutil.rmtree(stage)`. -/
def fs_rmtree_stage (fs : PkgFS) : PkgFS := { fs with stage := none }

/-- `stage.mkdir(parents=True)`. -/
def fs_mkdir_stage (fs : PkgFS) : PkgFS := { fs with stage := some [] }

/-- `shutil.copy2(src, stage / name)`. -/
def fs_copy_to_stage (file : String × String) (fs : PkgFS) : PkgFS :=
  { fs with stage := fs.stage.map (fun d => d ++ [file]) }

/-- `zip_path.unlink()`. -/
def fs_unlink_zip (fs : PkgFS) : PkgFS := { fs with zipAt := none }

/-- `shutil.make_archive(..., root_dir=stage)`: the archive holds exactly
the staging directory's contents. -/
def fs_make_archive (fs : PkgFS) : PkgFS :=
  { fs with zipAt := some (fs.stage.getD []) }

/-- The fixed auxiliary-file tuple of `stage_and_zip` line 135. -/
def AUX_FILES : List String := ["README.md", "LICENSE.md", "config.example.yaml"]

/-- The `for fname in (...)` loop of `stage_and_zip` lines 135-138: copy
each auxiliary file into the stage if it exists in the project root
(`root` is the root directory as an association list). -/
def aux_copy_fold (root : List (String × String)) (files : List String)
    (acc : PkgFS) : PkgFS :=
  files.foldl
    (fun a fname =>
      match root.lookup fname with
      | some content => fs_copy_to_stage (fname, content) a
      | none => a) acc

/-- The archive/staging-directory base name
`f"claracore-{tag}-{goos}-{goarch}"` (line 127). -/
def stage_name (tag goos goarch : String) : String :=
  "claracore-" ++ tag ++ "-" ++ goos ++ "-" ++ goarch

/-- Embedding of `stage_and_zip`, following the source line by line:
remove a pre-existing staging directory, make a fresh one, copy the binary,
copy the auxiliary files that exist, remove a pre-existing archive, archive
the staging contents. -/
def stage_and_zip (root : List (String × String)) (binName binContent : String)
    (fs : PkgFS) : PkgFS :=
  let fs1 := if fs.stage.isSome then fs_rmtree_stage fs else fs
  let fs2 := fs_mkdir_stage fs1
  let fs3 := fs_copy_to_stage (binName, binContent) fs2
  let fs4 := aux_copy_fold root AUX_FILES fs3
  let fs5 := if fs4.zipAt.isSome then fs_unlink_zip fs4 else fs4
  fs_make_archive fs5

/-- The auxiliary files of `files` present in `root`, in tuple order —
derived characterisation of what `aux_copy_fold` stages. -/
def presentAux (root : List (String × String)) (files : List String) :
    List (String × String) :=
  files.filterMap (fun f => (root.lookup f).map (fun c => (f, c)))

/-! ### Checksum generator (`release.py`, `calculate_sha256`, lines
156-162)

`hashlib` is library code outside this repository. Its documented update
semantics — `h.update(a); h.update(b)` is equivalent to `h.update(a + b)`,
and the digest is a pure function of all bytes absorbed — are modelled by
keeping the absorbed byte sequence as the hash state and applying an
abstract digest function `H` (standing for SHA-256 → lowercase hex) at the
end. The claim's content, that 4096-byte chunked absorption equals the
one-shot hash of the whole file, is then provable for the actual chunking
the source performs. Bytes are `Nat`s (values of Python `bytes`). -/

/-- The `for byte_block in iter(lambda: f.read(4096), b"")` loop: absorb
the file's remaining bytes 4096 at a time into the hash state until the
read comes back empty. -/
def sha_absorb : List Nat → List Nat → List Nat
  | buf, [] => buf
  | buf, b :: bs => sha_absorb (buf ++ (b :: bs).take 4096) ((b :: bs).drop 4096)
  termination_by _ l => l.length
  decreasing_by
    simp only [List.length_drop, List.length_cons]
    omega

/-- Embedding of `calculate_sha256` with the digest finaliser `H` abstract
(`sha256_hash.hexdigest()`): stream the content in 4096-byte chunks, then
finalise. -/
def calculate_sha256 (H : List Nat → String) (content : List Nat) : String :=
  H (sha_absorb [] content)

/-! ## Helper lemmas -/

theorem splitOnC_ne_nil (sep : Char) (l : List Char) : splitOnC sep l ≠ [] := by
  induction l with
  | nil => simp [splitOnC]
  | cons c cs ih =>
    simp only [splitOnC]
    split
    · simp
    · cases h : splitOnC sep cs with
      | nil => simp
      | cons g gs => simp

theorem length_splitOnC_ge_two_iff (sep : Char) (l : List Char) :
    2 ≤ (splitOnC sep l).length ↔ sep ∈ l := by
  induction l with
  | nil => simp [splitOnC]
  | cons c cs ih =>
    simp only [splitOnC]
    split
    next h =>
      subst h
      constructor
      · intro _; exact List.mem_cons_self _ _
      · intro _
        have := splitOnC_ne_nil c cs
        cases hs : splitOnC c cs with
        | nil => exact absurd hs this
        | cons g gs => simp [hs]
    next h =>
      cases hs : splitOnC sep cs with
      | nil => exact absurd hs (splitOnC_ne_nil sep cs)
      | cons g gs =>
        rw [hs] at ih
        simp only [hs, List.length_cons] at ih ⊢
        constructor
        · intro hle
          have : sep ∈ cs := ih.mp hle
          exact List.mem_cons_of_mem _ this
        · intro hmem
          rcases List.mem_cons.mp hmem with hc | hc
          · exact absurd hc.symm h
          · exact ih.mpr hc

/-- Splitting a string that starts with a separator-free line followed by
the separator yields that line and then the split of the remainder. -/
theorem splitOnC_append_cons (sep : Char) (l rest : List Char) (hl : sep ∉ l) :
    splitOnC sep (l ++ sep :: rest) = l :: splitOnC sep rest := by
  induction l with
  | nil => simp [splitOnC]
  | cons c cs ih =>
    have hc : c ≠ sep := fun h => hl (h ▸ List.mem_cons_self c cs)
    have hcs : sep ∉ cs := fun h => hl (List.mem_cons_of_mem _ h)
    simp only [List.cons_append, splitOnC, if_neg hc, List.append_eq]
    rw [ih hcs]

/-- The accumulator loop of `checksums_content` concatenates the entries
after the initial accumulator value. -/
theorem checksums_foldl_eq (bs : List (List Char × List Char)) (init : List Char) :
    bs.foldl (fun acc b => acc ++ b.1 ++ [' ', ' '] ++ b.2 ++ ['\n']) init
      = init ++ claimedChecksumsC5 bs := by
  induction bs generalizing init with
  | nil => simp [claimedChecksumsC5]
  | cons b bs ih =>
    rw [List.foldl_cons, ih]
    simp [claimedChecksumsC5, List.append_assoc]

/-- The `+=` loop of `checksums_content` is header-then-entries
concatenation. -/
theorem checksums_content_eq (version : List Char)
    (binaries : List (List Char × List Char)) :
    checksums_content version binaries
      = "# SHA256 Checksums for ClaraCore ".data ++ version ++ ['\n', '\n']
          ++ claimedChecksumsC5 binaries := by
  rw [checksums_content, checksums_foldl_eq]

/-- The upload loop walks past any all-successful prefix, accumulating the
uploaded names. -/
theorem upload_assets_loop_past_successes (pre : List String)
    (rest : List (String × HttpResp)) (uploaded : List String) :
    upload_assets_loop (pre.map (fun n => (n, HttpResp.success)) ++ rest) uploaded
      = upload_assets_loop rest (uploaded ++ pre) := by
  induction pre generalizing uploaded with
  | nil => simp
  | cons n ns ih =>
    simp only [List.map_cons, List.cons_append, upload_assets_loop, gh_upload_asset,
      List.append_eq]
    rw [ih]
    simp [List.append_assoc]

/-- `aux_copy_fold` never touches the archive and appends exactly the
present auxiliary files to an existing staging directory. -/
theorem aux_copy_fold_eq (root : List (String × String)) (files : List String)
    (zp : Option (List (String × String))) (d : List (String × String)) :
    aux_copy_fold root files { stage := some d, zipAt := zp }
      = { stage := some (d ++ presentAux root files), zipAt := zp } := by
  induction files generalizing d with
  | nil => simp [aux_copy_fold, presentAux]
  | cons f fs ih =>
    simp only [aux_copy_fold, presentAux, List.foldl_cons, List.filterMap_cons]
    cases h : root.lookup f with
    | none =>
      simpa [aux_copy_fold, presentAux, h] using ih d
    | some content =>
      simp only [h, Option.map_some, fs_copy_to_stage, Option.map]
      simpa [aux_copy_fold, presentAux, h] using ih (d ++ [(f, content)])

/-- Full characterisation of `stage_and_zip`: the resulting staging
directory and archive hold the binary followed by the present auxiliary
files, regardless of the starting filesystem state. -/
theorem stage_and_zip_eq (root : List (String × String)) (binName binContent : String)
    (fs : PkgFS) :
    stage_and_zip root binName binContent fs
      = { stage := some ((binName, binContent) :: presentAux root AUX_FILES)
        , zipAt := some ((binName, binContent) :: presentAux root AUX_FILES) } := by
  obtain ⟨st, zp⟩ := fs
  have h1 : (if (PkgFS.mk st zp).stage.isSome
      then fs_rmtree_stage (PkgFS.mk st zp) else PkgFS.mk st zp)
      = PkgFS.mk none zp := by
    cases st <;> simp [fs_rmtree_stage]
  simp only [stage_and_zip, h1, fs_mkdir_stage, fs_copy_to_stage, Option.map_some]
  rw [show (Option.some [] |>.map (fun d => d ++ [(binName, binContent)]))
      = some [(binName, binContent)] from rfl]
  rw [aux_copy_fold_eq root AUX_FILES zp [(binName, binContent)]]
  cases zp <;> simp [fs_unlink_zip, fs_make_archive]

/-- `build_binaries` distributes over list append: each target is handled
independently of the others. -/
theorem build_binaries_append (l₁ l₂ : List (BuildTarget × BuildOutcome)) :
    build_binaries (l₁ ++ l₂) = build_binaries l₁ ++ build_binaries l₂ := by
  induction l₁ with
  | nil => simp [build_binaries]
  | cons p rest ih =>
    obtain ⟨t, o⟩ := p
    cases o <;> simp [build_binaries, ih]

/-- Absorbing a byte list chunk-by-chunk appends exactly that byte list to
the hash state. -/
theorem sha_absorb_eq (buf l : List Nat) : sha_absorb buf l = buf ++ l := by
  induction buf, l using sha_absorb.induct with
  | case1 buf => simp [sha_absorb]
  | case2 buf b bs ih =>
    rw [sha_absorb, ih, List.append_assoc, List.take_append_drop]

/-- Splitting the checksum entry block on newlines yields one line per
entry plus the empty trailing line from the final newline. -/
theorem splitOnC_checksums_entries (binaries : List (List Char × List Char))
    (hb : ∀ p ∈ binaries, '\n' ∉ p.1 ∧ '\n' ∉ p.2) :
    splitOnC '\n' (claimedChecksumsC5 binaries)
      = binaries.map (fun p => p.1 ++ [' ', ' '] ++ p.2) ++ [[]] := by
  induction binaries with
  | nil => simp [claimedChecksumsC5, splitOnC]
  | cons p bs ih =>
    obtain ⟨h1, h2⟩ := hb p (List.mem_cons_self p bs)
    have hbs : ∀ q ∈ bs, '\n' ∉ q.1 ∧ '\n' ∉ q.2 :=
      fun q hq => hb q (List.mem_cons_of_mem _ hq)
    have hform : claimedChecksumsC5 (p :: bs)
        = (p.1 ++ [' ', ' '] ++ p.2) ++ '\n' :: claimedChecksumsC5 bs := by
      simp [claimedChecksumsC5, List.append_assoc]
    have hnl : '\n' ∉ p.1 ++ [' ', ' '] ++ p.2 := by
      intro hm
      rcases List.mem_append.mp hm with hm | hm
      · rcases List.mem_append.mp hm with hm | hm
        · exact h1 hm
        · revert hm; decide
      · exact h2 hm
    rw [hform, splitOnC_append_cons _ _ _ hnl, ih hbs]
    simp

/-! ## Claim theorems -/

/-- C1, counterexample: the claim says that for any lookup failure other
than "no such resource" (e.g. an HTTP 401 authentication failure) the run
is fatal and no creation is attempted; but `create_or_get_release` catches
every `HTTPError` with `except HTTPError: pass` and proceeds to create the
release. -/
theorem C1_counterexample :
    create_or_get_release (LookupOutcome.httpError 401) "v1.0.0".data [] []
        false false "abc1234".data
      = CreateOrGetAction.createNew
          (scripts_release_payload "v1.0.0".data [] [] false false "abc1234".data)
    ∧ CreateOrGetAction.createNew
          (scripts_release_payload "v1.0.0".data [] [] false false "abc1234".data)
      ≠ CreateOrGetAction.fatalError := ⟨rfl, by decide⟩

/-- C1, amended: a successful lookup reuses the existing release and never
creates one (re-running the pipeline never creates a duplicate release for
the same tag); when the lookup raises any `HTTPError` — 404 not-found, but
equally 401/403 auth or 5xx server errors — creation is attempted with the
payload of `scripts_release_payload`; only a non-HTTP network failure is
fatal without a creation attempt. -/
theorem C1_create_or_get_amended :
    (∀ (r : Nat) (tag name notes : List Char) (draft pr : Bool) (gitHead : List Char),
      create_or_get_release (LookupOutcome.found r) tag name notes draft pr gitHead
        = CreateOrGetAction.reuse r)
    ∧ (∀ (code : Nat) (tag name notes : List Char) (draft pr : Bool) (gitHead : List Char),
      create_or_get_release (LookupOutcome.httpError code) tag name notes draft pr gitHead
        = CreateOrGetAction.createNew
            (scripts_release_payload tag name notes draft pr gitHead))
    ∧ (∀ (tag name notes : List Char) (draft pr : Bool) (gitHead : List Char),
      create_or_get_release LookupOutcome.networkError tag name notes draft pr gitHead
        = CreateOrGetAction.fatalError) :=
  ⟨fun _ _ _ _ _ _ _ => rfl, fun _ _ _ _ _ _ _ => rfl, fun _ _ _ _ _ _ => rfl⟩

/-- C2, counterexample: the claim says a failure of one target's compile
step never aborts the whole run, for every ordered list of build targets;
but in the scripts pipeline (`scripts/release.py`), a compile failure of
the first target terminates the run via `SystemExit` — the remaining
target is never built. -/
theorem C2_counterexample :
    scripts_build_all
        [(("darwin", "arm64"), ScriptsBuildOutcome.commandFailed 1),
         (("windows", "amd64"),
           ScriptsBuildOutcome.builtAt "dist/build-windows-amd64/claracore.exe")]
      = Except.error "Command failed (1): go build" := rfl

/-- C2, amended: in `release.py`'s `build_binaries`, a failure of one
target's compile step (compiler error or missing output file) excludes
only that target and the loop continues to every remaining target, and an
empty final artifact set makes `main` exit 1 before any publishing; in
`scripts/release.py`, however, any single target build failure aborts the
entire run. -/
theorem C2_matrix_amended :
    (∀ (pre : List (BuildTarget × BuildOutcome)) (t : BuildTarget)
        (post : List (BuildTarget × BuildOutcome)),
      build_binaries (pre ++ [(t, BuildOutcome.compileFailed)] ++ post)
        = build_binaries pre ++ build_binaries post)
    ∧ (∀ (pre : List (BuildTarget × BuildOutcome)) (t : BuildTarget)
        (post : List (BuildTarget × BuildOutcome)),
      build_binaries (pre ++ [(t, BuildOutcome.outputMissing)] ++ post)
        = build_binaries pre ++ build_binaries post)
    ∧ (∀ (buildOnly publishOk : Bool),
      main_flow [] buildOnly publishOk = (false, 1))
    ∧ (∀ (b : BinaryInfo) (bs : List BinaryInfo),
      main_flow (b :: bs) false true = (true, 0))
    ∧ (∀ (t : (String × String)) (rc : Nat)
        (rest : List ((String × String) × ScriptsBuildOutcome)),
      scripts_build_all ((t, ScriptsBuildOutcome.commandFailed rc) :: rest)
        = Except.error ("Command failed (" ++ toString rc ++ "): go build")) := by
  refine ⟨?_, ?_, fun _ _ => rfl, fun _ _ => rfl, fun _ _ _ => rfl⟩
  · intro pre t post
    rw [build_binaries_append, build_binaries_append]
    simp [build_binaries]
  · intro pre t post
    rw [build_binaries_append, build_binaries_append]
    simp [build_binaries]

/-- C3, counterexample: with targets [linux-amd64 succeeds, windows-amd64
fails to compile], the artifact set is exactly the linux artifact — but
`main` then publishes and exits 0, not the non-zero status the claim
requires: nothing in the code compares the success count with the declared
target count. -/
theorem C3_counterexample :
    build_binaries
        [(target_linux_amd64, BuildOutcome.built "d1" "1.0 MB"),
         (target_windows_amd64, BuildOutcome.compileFailed)]
      = [{ target := target_linux_amd64, path := "dist/claracore-linux-amd64",
           size := "1.0 MB", sha256 := "d1" }]
    ∧ main_flow
        (build_binaries
          [(target_linux_amd64, BuildOutcome.built "d1" "1.0 MB"),
           (target_windows_amd64, BuildOutcome.compileFailed)]) false true
      = (true, 0) := ⟨rfl, rfl⟩

/-- C3, amended: given targets [A (succeeds), B (compiler fails)], the
final artifact set contains exactly A's output, A's asset is published
(followed by the checksum manifest) when publishing is requested, and the
process exits 0 when that publish succeeds — a partial matrix does not
yield a non-zero status; the exit status is 1 only when publishing fails
(or, per C2, when no target at all succeeded). -/
theorem C3_partial_matrix_amended :
    ∀ (sha size : String),
      build_binaries
          [(target_linux_amd64, BuildOutcome.built sha size),
           (target_windows_amd64, BuildOutcome.compileFailed)]
        = [{ target := target_linux_amd64, path := "dist/claracore-linux-amd64",
             size := size, sha256 := sha }]
      ∧ upload_sequence
          (build_binaries
            [(target_linux_amd64, BuildOutcome.built sha size),
             (target_windows_amd64, BuildOutcome.compileFailed)])
        = ["claracore-linux-amd64", "checksums.txt"]
      ∧ main_flow
          (build_binaries
            [(target_linux_amd64, BuildOutcome.built sha size),
             (target_windows_amd64, BuildOutcome.compileFailed)]) false true
        = (true, 0)
      ∧ main_flow
          (build_binaries
            [(target_linux_amd64, BuildOutcome.built sha size),
             (target_windows_amd64, BuildOutcome.compileFailed)]) false false
        = (true, 1) :=
  fun _ _ => ⟨rfl, rfl, rfl, rfl⟩

/-- C4: in the upload loop, an upload that fails with any `HTTPError`
(in particular a 422 name-conflict on the release) surfaces as an explicit
`SystemExit` error carrying the status code and response body; the failing
asset is never recorded as uploaded (nothing is overwritten), the assets
after it are never attempted, and the assets uploaded before it remain
exactly as they were — no rollback. A non-HTTP network/connection failure
likewise aborts the remaining uploads, as an uncaught exception. -/
theorem C4_upload_asset_contract :
    (∀ (pre : List String) (assetName : String) (code : Nat) (body : String)
        (post : List (String × HttpResp)),
      upload_assets_loop
          (pre.map (fun n => (n, HttpResp.success))
            ++ (assetName, HttpResp.httpError code body) :: post) []
        = (pre,
            some (UploadError.systemExit
              ("Asset upload failed (" ++ toString code ++ "): " ++ body))))
    ∧ (∀ (pre : List String) (assetName : String) (post : List (String × HttpResp)),
      upload_assets_loop
          (pre.map (fun n => (n, HttpResp.success))
            ++ (assetName, HttpResp.netError) :: post) []
        = (pre, some UploadError.uncaughtNetwork)) := by
  constructor
  · intro pre assetName code body post
    rw [upload_assets_loop_past_successes]
    simp [upload_assets_loop, gh_upload_asset]
  · intro pre assetName post
    rw [upload_assets_loop_past_successes]
    simp [upload_assets_loop, gh_upload_asset]

/-- C5, counterexample: the claim says the manifest consists of exactly
one `<digest>␠␠<filename>` line per artifact and nothing else; but
`create_github_release` starts the file with a `#` comment header line and
a blank line. -/
theorem C5_counterexample :
    checksums_content "v1.0.0".data [("ab12".data, "claracore-linux-amd64".data)]
      ≠ claimedChecksumsC5 [("ab12".data, "claracore-linux-amd64".data)] := by
  decide

/-- C5, amended: the manifest opens with the header line
`# SHA256 Checksums for ClaraCore <version>` and a blank line, followed by
exactly one line per artifact of the form digest, two spaces, filename
(and the empty trailing line produced by the final newline); and the
manifest (`checksums.txt`) is the last asset uploaded, after every binary
asset, through the same upload call. -/
theorem C5_manifest_amended :
    (∀ (version : List Char) (binaries : List (List Char × List Char)),
      '\n' ∉ version →
      (∀ p ∈ binaries, '\n' ∉ p.1 ∧ '\n' ∉ p.2) →
      splitOnC '\n' (checksums_content version binaries)
        = ("# SHA256 Checksums for ClaraCore ".data ++ version)
            :: [] :: (binaries.map (fun p => p.1 ++ [' ', ' '] ++ p.2) ++ [[]]))
    ∧ (∀ bins : List BinaryInfo,
      (upload_sequence bins).getLast? = some "checksums.txt") := by
  constructor
  · intro version binaries hv hb
    have hform : "# SHA256 Checksums for ClaraCore ".data ++ version ++ ['\n', '\n']
          ++ claimedChecksumsC5 binaries
        = ("# SHA256 Checksums for ClaraCore ".data ++ version)
            ++ '\n' :: ('\n' :: claimedChecksumsC5 binaries) := by
      simp [List.append_assoc]
    have hnl : '\n' ∉ "# SHA256 Checksums for ClaraCore ".data ++ version := by
      intro hm
      rcases List.mem_append.mp hm with hm | hm
      · revert hm; decide
      · exact hv hm
    rw [checksums_content_eq, hform, splitOnC_append_cons _ _ _ hnl]
    have hsecond : splitOnC '\n' ('\n' :: claimedChecksumsC5 binaries)
        = [] :: splitOnC '\n' (claimedChecksumsC5 binaries) := by
      simp [splitOnC]
    rw [hsecond, splitOnC_checksums_entries binaries hb]
  · intro bins
    simp [upload_sequence]

/-- C5, witness for the amended theorem at a concrete manifest. -/
theorem C5_manifest_amended_witness :
    splitOnC '\n'
        (checksums_content "v1.0.0".data
          [("ab12".data, "claracore-linux-amd64".data)])
      = ("# SHA256 Checksums for ClaraCore ".data ++ "v1.0.0".data)
          :: [] :: ([("ab12".data, "claracore-linux-amd64".data)].map
              (fun p => p.1 ++ [' ', ' '] ++ p.2) ++ [[]]) :=
  C5_manifest_amended.1 "v1.0.0".data [("ab12".data, "claracore-linux-amd64".data)]
    (by decide) (by decide)

/-- C6, counterexample: the claim says the prerelease flag is true iff
explicitly requested or the tag contains a marker token; in the scripts
pipeline, tag `v1.0.0-rc1` with no `--prerelease` flag produces a payload
with `prerelease = false`, although the tag contains the marker `rc` and
the claim therefore requires true. -/
theorem C6_counterexample :
    (scripts_release_payload "v1.0.0-rc1".data [] [] false false
        "abc1234".data).prerelease = false
    ∧ (false
        || (hasSubstr "alpha".data "v1.0.0-rc1".data
            || hasSubstr "beta".data "v1.0.0-rc1".data
            || hasSubstr "rc".data "v1.0.0-rc1".data)) = true :=
  ⟨rfl, by decide⟩

/-- C6, amended: the two pipelines each implement only one half of the
claimed disjunction. `scripts/release.py` sets the payload's prerelease
flag to exactly the operator's `--prerelease` flag, never inspecting the
tag; `release.py` sets it to exactly the marker-substring test of the tag
(`alpha`, `beta` or `rc` occurring anywhere in it) and offers no explicit
prerelease option at all. -/
theorem C6_prerelease_amended :
    (∀ (tag name notes : List Char) (draft pr : Bool) (gitHead : List Char),
      (scripts_release_payload tag name notes draft pr gitHead).prerelease = pr)
    ∧ (∀ (version : List Char) (draft : Bool),
      (main_create_release_args version draft).prerelease
        = (hasSubstr "alpha".data version || hasSubstr "beta".data version
            || hasSubstr "rc".data version))
    ∧ (main_create_release_args "v0.1.0".data false).prerelease = false
    ∧ (main_create_release_args "v0.1.0-beta".data false).prerelease = true :=
  ⟨fun _ _ _ _ _ _ => rfl, fun _ _ => rfl, by decide, by decide⟩

/-- C7, counterexample: the claim says the validator accepts exactly the
strings with a `v` prefix and at least two dot-separated
numeric-or-identifier components; but `validate_version` accepts `"v."`,
whose two components are both empty. -/
theorem C7_counterexample :
    validate_version "v.".data = true ∧ claimedAcceptC7 "v.".data = false := by
  decide

/-- C7, amended: the validator accepts every string of the claimed form
and behaves as claimed on the four examples — accepting `"v1.2.3"` and
`"v0.1"`, rejecting `"1.2.3"` (missing prefix) and `"vX"` (too few
components) — but its acceptance is broader than claimed: only the `v`
prefix and the part count are checked, so strings with empty or
non-identifier components are accepted too (see C10). -/
theorem C7_validator_amended :
    (∀ s : List Char, claimedAcceptC7 s = true → validate_version s = true)
    ∧ validate_version "v1.2.3".data = true
    ∧ validate_version "v0.1".data = true
    ∧ validate_version "1.2.3".data = false
    ∧ validate_version "vX".data = false := by
  refine ⟨?_, by decide, by decide, by decide, by decide⟩
  intro s h
  cases s with
  | nil => simp [claimedAcceptC7] at h
  | cons c rest =>
    simp only [claimedAcceptC7, Bool.and_eq_true, decide_eq_true_eq] at h
    obtain ⟨⟨hc, hlen⟩, _⟩ := h
    subst hc
    simp [validate_version, hlen]

/-- C7, witness for the amended theorem: `"v1.2.3"` is of the claimed form
and is accepted. -/
theorem C7_validator_amended_witness : validate_version "v1.2.3".data = true :=
  C7_validator_amended.1 "v1.2.3".data (by decide)

/-- C8: packaging is idempotent replacement: running `stage_and_zip` twice
for an unchanged binary yields the same staging directory and archive as
running it once, the result never depends on whatever staging directory or
archive already existed at those paths, and the staging/archive base name
is `claracore-<tag>-<goos>-<goarch>`. -/
theorem C8_stage_and_zip_idempotent :
    (∀ (root : List (String × String)) (binName binContent : String) (fs : PkgFS),
      stage_and_zip root binName binContent (stage_and_zip root binName binContent fs)
        = stage_and_zip root binName binContent fs)
    ∧ (∀ (root : List (String × String)) (binName binContent : String) (fs fs' : PkgFS),
      stage_and_zip root binName binContent fs
        = stage_and_zip root binName binContent fs')
    ∧ stage_name "v1.2.3" "linux" "amd64" = "claracore-v1.2.3-linux-amd64" := by
  refine ⟨?_, ?_, by decide⟩
  · intro root n c fs
    rw [stage_and_zip_eq, stage_and_zip_eq]
  · intro root n c fs fs'
    rw [stage_and_zip_eq, stage_and_zip_eq]

/-- C9: the checksum generator streams the file in 4096-byte chunks
through the hash accumulator, and this chunked accumulation absorbs
exactly the file's entire byte content, so the emitted digest equals the
one-shot digest `H` of the whole content for every digest finaliser `H`
(in the source, SHA-256 → lowercase hex, which lives in the external
`hashlib`); consequently identical byte content always receives an
identical digest. -/
theorem C9_chunked_digest :
    (∀ (H : List Nat → String) (content : List Nat),
      calculate_sha256 H content = H content)
    ∧ (∀ (H : List Nat → String) (c₁ c₂ : List Nat),
      c₁ = c₂ → calculate_sha256 H c₁ = calculate_sha256 H c₂) := by
  constructor
  · intro H content
    rw [calculate_sha256, sha_absorb_eq, List.nil_append]
  · intro H c₁ c₂ h
    rw [h]

/-- C9, witness: the equal-content consequence at a concrete content. -/
theorem C9_chunked_digest_witness :
    calculate_sha256 (fun l => toString l.length) [1, 2, 3]
      = calculate_sha256 (fun l => toString l.length) [1, 2, 3] :=
  C9_chunked_digest.2 (fun l => toString l.length) [1, 2, 3] [1, 2, 3] rfl

/-- C10: the validator's acceptance depends only on the `v` prefix and the
count of dot-separated parts, never on the parts' content: a string is
accepted iff it is `'v'` followed by a remainder containing at least one
`'.'` — in particular `"v."`, `"v1."` and `"va.b"` are all accepted. -/
theorem C10_validator_content_blind :
    (∀ s : List Char,
      validate_version s = true ↔ ∃ rest, s = 'v' :: rest ∧ '.' ∈ rest)
    ∧ validate_version "v.".data = true
    ∧ validate_version "v1.".data = true
    ∧ validate_version "va.b".data = true := by
  refine ⟨?_, by decide, by decide, by decide⟩
  intro s
  cases s with
  | nil => simp [validate_version]
  | cons c rest =>
    by_cases hc : c = 'v'
    · subst hc
      simp [validate_version, length_splitOnC_ge_two_iff]
    · simp [validate_version, hc]

end ClaraCore
